import Mathlib

/-!
Verification of the wizard/prompter core and auxiliary components of the
aws-toolkit-vscode repository, against its natural-language specification.

The StepEngine / Form / Prompter / AsyncCollection subsystem is described by
the specification and the architecture document, but its implementation files
are not part of the sampled sources; those components are modelled from the
specification text (section 4.1 of the spec gives the engine's algorithm
verbatim).  The telemetry logger, the webview client agent and the
default-region check are embedded directly from their source files.
-/

namespace WizardCore

/-- Modelled from the spec: terminal result of one Prompter invocation
(spec section 4.3).  `resolved` carries the user's answer, `cancelled` models
dismiss / back, `failure` models a PrompterFailure (spec section 7). -/
inductive PromptResult (V : Type) where
  | resolved (v : V)
  | cancelled
  | failure
deriving DecidableEq

/-- Modelled from the spec: the path-addressable WizardState store
(spec section 3).  A path is either unset (`none`) or holds a value. -/
def Store (V : Type) : Type := Nat → Option V

/-- Modelled from the spec: write a value (or unset marker) at one path of the
WizardState, leaving every other path unchanged. -/
def setPath {V : Type} (s : Store V) (p : Nat) (v : Option V) : Store V :=
  fun q => if q = p then v else s q

/-- Modelled from the spec: a FormField declaration (spec section 3): a unique
path, a `showWhen` predicate and a binder.  Predicates and binders receive a
snapshot of the current state and may throw (`Except.error`), modelling
EvaluationFailure.  The binder's `Except.ok true` means "returns a Prompter",
`Except.ok false` means "returns undefined" (not applicable). -/
structure FormField (V : Type) where
  path : Nat
  showWhen : Store V → Except Unit Bool
  binder : Store V → Except Unit Bool

/-- Modelled from the spec: outcome of `run()` (spec section 6).
`completed` returns the assembled state, `cancelled` is the distinguished
CancelledMarker (the store it carries records the engine state at the moment of
cancellation, used only to specify "no fields set"), and `failed` carries no
state at all: an aborted run returns no partial state (spec section 7). -/
inductive RunResult (V : Type) where
  | completed (s : Store V)
  | cancelled (s : Store V)
  | failed

/-- Modelled from the spec: the StepEngine loop of spec section 4.1, with the
user's interactions supplied as a script of prompt results.  Arguments after
the fuel: cursor, store, history stack of `(index, priorValueAtPath)` for every
field shown and answered, remaining script, and the reversed trace of prompted
field indices.  Returns the run result together with the trace of prompted
fields; `none` means the fuel or the script ran out. -/
def runAux {V : Type} (fields : List (FormField V)) :
    Nat → Nat → Store V → List (Nat × Option V) → List (PromptResult V) → List Nat →
    Option (RunResult V × List Nat)
  | 0, _, _, _, _, _ => none
  | fuel+1, i, store, hist, script, trace =>
    match fields[i]? with
    | none => some (RunResult.completed store, trace.reverse)
    | some f =>
      match f.showWhen store with
      | Except.error _ => some (RunResult.failed, trace.reverse)
      | Except.ok false => runAux fields fuel (i+1) store hist script trace
      | Except.ok true =>
        match f.binder store with
        | Except.error _ => some (RunResult.failed, trace.reverse)
        | Except.ok false => runAux fields fuel (i+1) store hist script trace
        | Except.ok true =>
          match script with
          | [] => none
          | PromptResult.resolved v :: rest =>
              runAux fields fuel (i+1) (setPath store f.path (some v))
                ((i, store f.path) :: hist) rest (i :: trace)
          | PromptResult.failure :: _ => some (RunResult.failed, (i :: trace).reverse)
          | PromptResult.cancelled :: rest =>
            match hist with
            | [] => some (RunResult.cancelled store, (i :: trace).reverse)
            | (j, prior) :: hrest =>
              match fields[j]? with
              | none => none
              | some fj => runAux fields fuel j (setPath store fj.path prior) hrest rest (i :: trace)

/-- Modelled from the spec: `Wizard.run()` (spec section 6): start the engine
at the first field with an empty store and empty history. -/
def run {V : Type} (fields : List (FormField V)) (script : List (PromptResult V))
    (fuel : Nat) : Option (RunResult V × List Nat) :=
  runAux fields fuel 0 (fun _ => none) [] script []

/-- Helper: a run segment in which every field is shown, has a prompter and is
answered visits the remaining fields in declaration order. -/
theorem runAux_all_resolved {V : Type} (fields : List (FormField V))
    (hshow : ∀ f ∈ fields, ∀ s, f.showWhen s = Except.ok true)
    (hbind : ∀ f ∈ fields, ∀ s, f.binder s = Except.ok true) :
    ∀ (vs : List V) (i : Nat) (store : Store V) (hist : List (Nat × Option V))
      (trace : List Nat), vs.length = fields.length - i → i ≤ fields.length →
      ∃ s, runAux fields (vs.length + 1) i store hist (vs.map PromptResult.resolved) trace =
        some (RunResult.completed s, trace.reverse ++ List.range' i vs.length) := by
  intro vs
  induction vs with
  | nil =>
    intro i store hist trace hlen hle
    simp only [List.length_nil] at hlen
    have hi : i = fields.length := by omega
    have hnone : fields[i]? = none := by
      rw [List.getElem?_eq_none_iff]
      omega
    refine ⟨store, ?_⟩
    simp [runAux, hnone]
  | cons v vs ih =>
    intro i store hist trace hlen hle
    have hi : i < fields.length := by
      simp only [List.length_cons] at hlen
      omega
    have hsome : fields[i]? = some fields[i] := List.getElem?_eq_getElem hi
    have hmem : fields[i] ∈ fields := List.getElem_mem hi
    have h1 : fields[i].showWhen store = Except.ok true := hshow _ hmem store
    have h2 : fields[i].binder store = Except.ok true := hbind _ hmem store
    have hlen' : vs.length = fields.length - (i + 1) := by
      simp only [List.length_cons] at hlen
      omega
    obtain ⟨s, hs⟩ := ih (i + 1) (setPath store fields[i].path (some v))
      ((i, store fields[i].path) :: hist) (i :: trace) hlen' (by omega)
    refine ⟨s, ?_⟩
    show runAux fields (vs.length + 1 + 1) i store hist
      (PromptResult.resolved v :: vs.map PromptResult.resolved) trace = _
    rw [runAux]
    simp only [hsome, h1, h2]
    rw [hs]
    congr 2
    simp [List.range'_succ]

/-- Claim C1: for every Form in which no field declares a showWhen predicate
(every predicate is the default always-true one) and every binder produces a
prompter, a run with no backward navigation (an all-resolved script answering
every field) prompts the fields in exactly the declaration order
`0, 1, ..., n-1` and completes. -/
theorem C1_declaration_order {V : Type} (fields : List (FormField V))
    (hshow : ∀ f ∈ fields, ∀ s, f.showWhen s = Except.ok true)
    (hbind : ∀ f ∈ fields, ∀ s, f.binder s = Except.ok true)
    (vs : List V) (hlen : vs.length = fields.length) :
    ∃ s, run fields (vs.map PromptResult.resolved) (fields.length + 1) =
      some (RunResult.completed s, List.range fields.length) := by
  obtain ⟨s, hs⟩ := runAux_all_resolved fields hshow hbind vs 0 (fun _ => none) [] []
    (by omega) (by omega)
  refine ⟨s, ?_⟩
  rw [run, ← hlen, hs]
  simp [List.range_eq_range']

/-- Witness for C1: a concrete two-field form with always-true predicates is
prompted in declaration order. -/
theorem C1_declaration_order_witness :
    ∃ s, run [⟨5, fun _ => Except.ok true, fun _ => Except.ok true⟩,
              ⟨7, fun _ => Except.ok true, fun _ => Except.ok true⟩]
        ([10, 20].map PromptResult.resolved) (2 + 1) =
      some (RunResult.completed s, List.range 2) :=
  C1_declaration_order
    [⟨5, fun _ => Except.ok true, fun _ => Except.ok true⟩,
     ⟨7, fun _ => Except.ok true, fun _ => Except.ok true⟩]
    (by intro f hf s
        simp only [List.mem_cons, List.mem_singleton] at hf
        rcases hf with h | h | h <;> first | (subst h; rfl) | cases h)
    (by intro f hf s
        simp only [List.mem_cons, List.mem_singleton] at hf
        rcases hf with h | h | h <;> first | (subst h; rfl) | cases h)
    [10, 20] rfl

/-- Claim C2: when a Prompter terminates Cancelled and the history stack is
non-empty, the engine continues at exactly the stack's top entry `j` (the most
recently shown-and-answered field), with that field's previous value restored
at its path before it is re-prompted; no other earlier field is visited. -/
theorem C2_back_navigation_lifo {V : Type} (fields : List (FormField V))
    (i j : Nat) (f fj : FormField V) (store : Store V) (prior : Option V)
    (hrest : List (Nat × Option V)) (rest : List (PromptResult V)) (trace : List Nat)
    (fuel : Nat) (hf : fields[i]? = some f) (hfj : fields[j]? = some fj)
    (hshow : f.showWhen store = Except.ok true) (hbind : f.binder store = Except.ok true) :
    runAux fields (fuel + 1) i store ((j, prior) :: hrest)
        (PromptResult.cancelled :: rest) trace =
      runAux fields fuel j (setPath store fj.path prior) hrest rest (i :: trace) ∧
    setPath store fj.path prior fj.path = prior := by
  constructor
  · rw [runAux]
    simp only [hf, hshow, hbind, hfj]
  · simp [setPath]

/-- Witness for C2: cancelling the second field of a concrete two-field form
rewinds to field 0 with its prior (unset) value restored. -/
theorem C2_back_navigation_lifo_witness :
    runAux ([⟨3, fun _ => Except.ok true, fun _ => Except.ok true⟩,
             ⟨4, fun _ => Except.ok true, fun _ => Except.ok true⟩] :
              List (FormField Nat))
        (1 + 1) 1 (fun _ => none) [(0, none)] [PromptResult.cancelled] [] =
      runAux ([⟨3, fun _ => Except.ok true, fun _ => Except.ok true⟩,
               ⟨4, fun _ => Except.ok true, fun _ => Except.ok true⟩] :
                List (FormField Nat))
        1 0 (setPath (fun _ => none) 3 none) [] [] [1] ∧
    setPath (fun _ => (none : Option Nat)) 3 none 3 = none :=
  C2_back_navigation_lifo
    ([⟨3, fun _ => Except.ok true, fun _ => Except.ok true⟩,
      ⟨4, fun _ => Except.ok true, fun _ => Except.ok true⟩] : List (FormField Nat))
    1 0 ⟨4, fun _ => Except.ok true, fun _ => Except.ok true⟩
    ⟨3, fun _ => Except.ok true, fun _ => Except.ok true⟩
    (fun _ => none) none [] [] [] 1 rfl rfl rfl rfl

/-- Helper: a segment of fields that are all not applicable at the current
store (predicate false, or predicate true with an undefined binder) is skipped
without prompting and without touching the store or history. -/
theorem runAux_skip_segment {V : Type} (fields : List (FormField V)) (store : Store V)
    (hist : List (Nat × Option V)) (script : List (PromptResult V)) :
    ∀ (m a fuel : Nat) (trace : List Nat),
      (∀ k, a ≤ k → k < a + m → ∃ fk, fields[k]? = some fk ∧
          (fk.showWhen store = Except.ok false ∨
           (fk.showWhen store = Except.ok true ∧ fk.binder store = Except.ok false))) →
      runAux fields (fuel + m) a store hist script trace =
        runAux fields fuel (a + m) store hist script trace := by
  intro m
  induction m with
  | zero => intro a fuel trace _; rfl
  | succ m ih =>
    intro a fuel trace hna
    obtain ⟨fa, hfa, hcase⟩ := hna a (Nat.le_refl a) (by omega)
    have hstep : runAux fields (fuel + m + 1) a store hist script trace =
        runAux fields (fuel + m) (a + 1) store hist script trace := by
      rw [runAux]
      rcases hcase with h | ⟨h1, h2⟩
      · simp only [hfa, h]
      · simp only [hfa, h1, h2]
    have harith : fuel + (m + 1) = fuel + m + 1 := by omega
    rw [harith, hstep, ih (a + 1) fuel trace
      (fun k hk1 hk2 => hna k (by omega) (by omega))]
    have : a + 1 + m = a + (m + 1) := by omega
    rw [this]

/-- Claim C3: if the first visible step (every earlier field being not
applicable at the empty initial store) is cancelled while the history stack is
still empty, `run()` resolves to the distinguished cancellation marker carrying
a store in which no field has been set. -/
theorem C3_cancel_first_visible {V : Type} (fields : List (FormField V)) (i : Nat)
    (fi : FormField V) (rest : List (PromptResult V))
    (hskip : ∀ k, k < i → ∃ fk, fields[k]? = some fk ∧
        (fk.showWhen (fun _ => none) = Except.ok false ∨
         (fk.showWhen (fun _ => none) = Except.ok true ∧
          fk.binder (fun _ => none) = Except.ok false)))
    (hfi : fields[i]? = some fi)
    (hshow : fi.showWhen (fun _ => none) = Except.ok true)
    (hbind : fi.binder (fun _ => none) = Except.ok true) :
    run fields (PromptResult.cancelled :: rest) (i + 1) =
      some (RunResult.cancelled (fun _ => none), [i]) ∧
    ∀ p : Nat, (fun _ : Nat => (none : Option V)) p = none := by
  refine ⟨?_, fun _ => rfl⟩
  rw [run]
  have h1 : i + 1 = 1 + i := by omega
  rw [h1, runAux_skip_segment fields (fun _ => none) [] (PromptResult.cancelled :: rest)
    i 0 1 [] (fun k hk1 hk2 => hskip k (by omega))]
  rw [runAux]
  simp only [Nat.zero_add, hfi, hshow, hbind]
  rfl

/-- Witness for C3: cancelling the first visible step (field 1, field 0 being
hidden) of a concrete form yields the cancellation marker with no field set. -/
theorem C3_cancel_first_visible_witness :
    run ([⟨0, fun _ => Except.ok false, fun _ => Except.ok true⟩,
          ⟨1, fun _ => Except.ok true, fun _ => Except.ok true⟩] :
           List (FormField Nat))
        [PromptResult.cancelled] (1 + 1) =
      some (RunResult.cancelled (fun _ => none), [1]) ∧
    ∀ p : Nat, (fun _ : Nat => (none : Option Nat)) p = none :=
  C3_cancel_first_visible
    ([⟨0, fun _ => Except.ok false, fun _ => Except.ok true⟩,
      ⟨1, fun _ => Except.ok true, fun _ => Except.ok true⟩] : List (FormField Nat))
    1 ⟨1, fun _ => Except.ok true, fun _ => Except.ok true⟩ []
    (fun k hk => by
      interval_cases k
      exact ⟨⟨0, fun _ => Except.ok false, fun _ => Except.ok true⟩, rfl, Or.inl rfl⟩)
    rfl rfl rfl

/-- Helper: one engine step for a shown field whose Prompter resolves: the
value is written at the field's path, the prior value is pushed on the history
stack, and the cursor advances by one. -/
theorem runAux_resolved_step {V : Type} {fields : List (FormField V)} {fuel i : Nat}
    {f : FormField V} {store : Store V} {hist : List (Nat × Option V)} {v : V}
    {rest : List (PromptResult V)} {trace : List Nat}
    (hf : fields[i]? = some f) (hshow : f.showWhen store = Except.ok true)
    (hbind : f.binder store = Except.ok true) :
    runAux fields (fuel + 1) i store hist (PromptResult.resolved v :: rest) trace =
      runAux fields fuel (i + 1) (setPath store f.path (some v))
        ((i, store f.path) :: hist) rest (i :: trace) := by
  rw [runAux]
  simp only [hf, hshow, hbind]

/-- Helper: one engine step for a shown field whose Prompter is cancelled with
a non-empty history: pop the top entry, restore the popped field's prior value
and move the cursor to the popped field's index. -/
theorem runAux_cancel_pop {V : Type} {fields : List (FormField V)} {fuel i j : Nat}
    {f fj : FormField V} {store : Store V} {prior : Option V}
    {hrest : List (Nat × Option V)} {rest : List (PromptResult V)} {trace : List Nat}
    (hf : fields[i]? = some f) (hshow : f.showWhen store = Except.ok true)
    (hbind : f.binder store = Except.ok true) (hfj : fields[j]? = some fj) :
    runAux fields (fuel + 1) i store ((j, prior) :: hrest)
        (PromptResult.cancelled :: rest) trace =
      runAux fields fuel j (setPath store fj.path prior) hrest rest (i :: trace) := by
  rw [runAux]
  simp only [hf, hshow, hbind, hfj]

/-- Helper: one engine step for a field whose showWhen predicate is false: the
cursor advances without prompting and the store and history are untouched. -/
theorem runAux_skip_false {V : Type} {fields : List (FormField V)} {fuel i : Nat}
    {f : FormField V} {store : Store V} {hist : List (Nat × Option V)}
    {script : List (PromptResult V)} {trace : List Nat}
    (hf : fields[i]? = some f) (hshow : f.showWhen store = Except.ok false) :
    runAux fields (fuel + 1) i store hist script trace =
      runAux fields fuel (i + 1) store hist script trace := by
  rw [runAux]
  simp only [hf, hshow]

/-- Helper: the engine terminates successfully when the cursor moves past the
last field, returning the assembled store. -/
theorem runAux_done {V : Type} {fields : List (FormField V)} {fuel i : Nat}
    {store : Store V} {hist : List (Nat × Option V)}
    {script : List (PromptResult V)} {trace : List Nat}
    (h : fields[i]? = none) :
    runAux fields (fuel + 1) i store hist script trace =
      some (RunResult.completed store, trace.reverse) := by
  rw [runAux]
  simp only [h]

/-- Claim C4: after backward navigation to the immediately preceding answered
field, submitting a new answer exactly replaces that field's old value (the
final store holds only the new value at its path), and the showWhen of the
subsequent field is evaluated fresh against the updated state: with the
changed answer the second field is no longer shown (trace `[0, 1, 0]`, no
second visit of field 1).  The last conjunct states the re-evaluation rule
itself: the continuation after an answer depends only on the updated store. -/
theorem C4_reanswer_replaces {V : Type} (p1 p2 : Nat) (pred : Option V → Bool)
    (a b : V) (hp : p2 ≠ p1) (ha : pred (some a) = true) (hb : pred (some b) = false) :
    run ([⟨p1, fun _ => Except.ok true, fun _ => Except.ok true⟩,
          ⟨p2, fun s => Except.ok (pred (s p1)), fun _ => Except.ok true⟩] :
           List (FormField V))
        [PromptResult.resolved a, PromptResult.cancelled, PromptResult.resolved b] 5 =
      some (RunResult.completed (setPath (fun _ => none) p1 (some b)), [0, 1, 0]) ∧
    setPath (fun _ => (none : Option V)) p1 (some b) p1 = some b ∧
    setPath (fun _ => (none : Option V)) p1 (some b) p2 = none ∧
    (∀ (fields : List (FormField V)) (i : Nat) (f : FormField V) (store : Store V)
       (hist : List (Nat × Option V)) (v : V) (rest : List (PromptResult V))
       (trace : List Nat) (fuel : Nat),
       fields[i]? = some f → f.showWhen store = Except.ok true →
       f.binder store = Except.ok true →
       runAux fields (fuel + 1) i store hist (PromptResult.resolved v :: rest) trace =
         runAux fields fuel (i + 1) (setPath store f.path (some v))
           ((i, store f.path) :: hist) rest (i :: trace)) := by
  refine ⟨?_, by simp [setPath], by simp [setPath, hp], ?_⟩
  · calc
      run ([⟨p1, fun _ => Except.ok true, fun _ => Except.ok true⟩,
            ⟨p2, fun s => Except.ok (pred (s p1)), fun _ => Except.ok true⟩] :
             List (FormField V))
          [PromptResult.resolved a, PromptResult.cancelled, PromptResult.resolved b] 5
        = runAux [⟨p1, fun _ => Except.ok true, fun _ => Except.ok true⟩,
                  ⟨p2, fun s => Except.ok (pred (s p1)), fun _ => Except.ok true⟩]
            (4 + 1) 0 (fun _ => none) []
            [PromptResult.resolved a, PromptResult.cancelled, PromptResult.resolved b]
            [] := rfl
      _ = runAux [⟨p1, fun _ => Except.ok true, fun _ => Except.ok true⟩,
                  ⟨p2, fun s => Except.ok (pred (s p1)), fun _ => Except.ok true⟩]
            (3 + 1) 1 (setPath (fun _ => none) p1 (some a)) [(0, none)]
            [PromptResult.cancelled, PromptResult.resolved b] [0] :=
        runAux_resolved_step rfl rfl rfl
      _ = runAux [⟨p1, fun _ => Except.ok true, fun _ => Except.ok true⟩,
                  ⟨p2, fun s => Except.ok (pred (s p1)), fun _ => Except.ok true⟩]
            (2 + 1) 0 (setPath (setPath (fun _ => none) p1 (some a)) p1 none) []
            [PromptResult.resolved b] [1, 0] :=
        runAux_cancel_pop rfl (by simp [setPath, ha]) rfl rfl
      _ = runAux [⟨p1, fun _ => Except.ok true, fun _ => Except.ok true⟩,
                  ⟨p2, fun s => Except.ok (pred (s p1)), fun _ => Except.ok true⟩]
            (1 + 1) 1
            (setPath (setPath (setPath (fun _ => none) p1 (some a)) p1 none) p1 (some b))
            [(0, setPath (setPath (fun _ => none) p1 (some a)) p1 none p1)] [] [0, 1, 0] :=
        runAux_resolved_step rfl rfl rfl
      _ = runAux [⟨p1, fun _ => Except.ok true, fun _ => Except.ok true⟩,
                  ⟨p2, fun s => Except.ok (pred (s p1)), fun _ => Except.ok true⟩]
            (0 + 1) 2
            (setPath (setPath (setPath (fun _ => none) p1 (some a)) p1 none) p1 (some b))
            [(0, setPath (setPath (fun _ => none) p1 (some a)) p1 none p1)] [] [0, 1, 0] :=
        runAux_skip_false rfl (by simp [setPath, hb])
      _ = some (RunResult.completed
            (setPath (setPath (setPath (fun _ => none) p1 (some a)) p1 none) p1 (some b)),
            [0, 1, 0]) := runAux_done rfl
      _ = some (RunResult.completed (setPath (fun _ => none) p1 (some b)), [0, 1, 0]) := by
        have hst : setPath (setPath (setPath (fun _ => none) p1 (some a)) p1 none) p1
            (some b) = setPath (fun _ => (none : Option V)) p1 (some b) := by
          funext q
          by_cases hq : q = p1 <;> simp [setPath, hq]
        rw [hst]
  · intro fields i f store hist v rest trace fuel hf hshow hbind
    exact runAux_resolved_step hf hshow hbind

/-- Witness for C4: with field 1 shown when field 0 holds a value of at least
6, answering 10, backing up and re-answering 1 skips field 1 and ends with
only the new value set. -/
theorem C4_reanswer_replaces_witness :
    run ([⟨0, fun _ => Except.ok true, fun _ => Except.ok true⟩,
          ⟨1, fun s => Except.ok (decide (6 ≤ (s 0).getD 0)), fun _ => Except.ok true⟩] :
           List (FormField Nat))
        [PromptResult.resolved 10, PromptResult.cancelled, PromptResult.resolved 1] 5 =
      some (RunResult.completed (setPath (fun _ => none) 0 (some 1)), [0, 1, 0]) :=
  (C4_reanswer_replaces 0 1 (fun o => decide (6 ≤ o.getD 0)) 10 1
    (by decide) (by decide) (by decide)).1

/-- Claim C5: a later field whose showWhen reads the path written by an
earlier field is never prompted when the predicate is false at the earlier
field's current value (trace `[0]`), and its path is unset in the final state;
skipping a hidden field moving forward touches neither the store nor the
history (second conjunct), and backward navigation restores a value only at
the popped field's path, leaving every other path (in particular a hidden
field's previously entered value) untouched (third conjunct). -/
theorem C5_hidden_field_frame {V : Type} (p1 p2 : Nat) (pred : Option V → Bool)
    (a : V) (hp : p2 ≠ p1) (ha : pred (some a) = false) :
    (run ([⟨p1, fun _ => Except.ok true, fun _ => Except.ok true⟩,
           ⟨p2, fun s => Except.ok (pred (s p1)), fun _ => Except.ok true⟩] :
            List (FormField V))
        [PromptResult.resolved a] 3 =
      some (RunResult.completed (setPath (fun _ => none) p1 (some a)), [0]) ∧
     setPath (fun _ => (none : Option V)) p1 (some a) p2 = none) ∧
    (∀ (fields : List (FormField V)) (i : Nat) (f : FormField V) (store : Store V)
       (hist : List (Nat × Option V)) (script : List (PromptResult V))
       (trace : List Nat) (fuel : Nat),
       fields[i]? = some f → f.showWhen store = Except.ok false →
       runAux fields (fuel + 1) i store hist script trace =
         runAux fields fuel (i + 1) store hist script trace) ∧
    (∀ (store : Store V) (pth : Nat) (prior : Option V) (q : Nat), q ≠ pth →
       setPath store pth prior q = store q) := by
  refine ⟨⟨?_, by simp [setPath, hp]⟩, ?_, ?_⟩
  · calc
      run ([⟨p1, fun _ => Except.ok true, fun _ => Except.ok true⟩,
            ⟨p2, fun s => Except.ok (pred (s p1)), fun _ => Except.ok true⟩] :
             List (FormField V))
          [PromptResult.resolved a] 3
        = runAux [⟨p1, fun _ => Except.ok true, fun _ => Except.ok true⟩,
                  ⟨p2, fun s => Except.ok (pred (s p1)), fun _ => Except.ok true⟩]
            (2 + 1) 0 (fun _ => none) [] [PromptResult.resolved a] [] := rfl
      _ = runAux [⟨p1, fun _ => Except.ok true, fun _ => Except.ok true⟩,
                  ⟨p2, fun s => Except.ok (pred (s p1)), fun _ => Except.ok true⟩]
            (1 + 1) 1 (setPath (fun _ => none) p1 (some a)) [(0, none)] [] [0] :=
        runAux_resolved_step rfl rfl rfl
      _ = runAux [⟨p1, fun _ => Except.ok true, fun _ => Except.ok true⟩,
                  ⟨p2, fun s => Except.ok (pred (s p1)), fun _ => Except.ok true⟩]
            (0 + 1) 2 (setPath (fun _ => none) p1 (some a)) [(0, none)] [] [0] :=
        runAux_skip_false rfl (by simp [setPath, ha])
      _ = some (RunResult.completed (setPath (fun _ => none) p1 (some a)), [0]) :=
        runAux_done rfl
  · intro fields i f store hist script trace fuel hf hshow
    exact runAux_skip_false hf hshow
  · intro store pth prior q hq
    simp [setPath, hq]

/-- Witness for C5: with field 1 shown when field 0 holds a value of at least
6, answering 1 completes without ever prompting field 1. -/
theorem C5_hidden_field_frame_witness :
    run ([⟨0, fun _ => Except.ok true, fun _ => Except.ok true⟩,
          ⟨1, fun s => Except.ok (decide (6 ≤ (s 0).getD 0)), fun _ => Except.ok true⟩] :
           List (FormField Nat))
        [PromptResult.resolved 1] 3 =
      some (RunResult.completed (setPath (fun _ => none) 0 (some 1)), [0]) ∧
    setPath (fun _ => (none : Option Nat)) 0 (some 1) 1 = none :=
  (C5_hidden_field_frame 0 1 (fun o => decide (6 ≤ o.getD 0)) 1
    (by decide) (by decide)).1

/-- Claim C6: a throwing showWhen predicate or binder aborts the run with the
`failed` result, which carries no state (no partial state is returned) and
performs no retry; a Prompter-level failure is handled identically (third
conjunct). -/
theorem C6_failure_aborts {V : Type} (fields : List (FormField V)) (i : Nat)
    (f : FormField V) (store : Store V) (hist : List (Nat × Option V))
    (script : List (PromptResult V)) (rest : List (PromptResult V))
    (trace : List Nat) (fuel : Nat) :
    (fields[i]? = some f → f.showWhen store = Except.error () →
      runAux fields (fuel + 1) i store hist script trace =
        some (RunResult.failed, trace.reverse)) ∧
    (fields[i]? = some f → f.showWhen store = Except.ok true →
      f.binder store = Except.error () →
      runAux fields (fuel + 1) i store hist script trace =
        some (RunResult.failed, trace.reverse)) ∧
    (fields[i]? = some f → f.showWhen store = Except.ok true →
      f.binder store = Except.ok true →
      runAux fields (fuel + 1) i store hist (PromptResult.failure :: rest) trace =
        some (RunResult.failed, (i :: trace).reverse)) := by
  refine ⟨?_, ?_, ?_⟩
  · intro hf hshow
    rw [runAux]
    simp only [hf, hshow]
  · intro hf hshow hbind
    rw [runAux]
    simp only [hf, hshow, hbind]
  · intro hf hshow hbind
    rw [runAux]
    simp only [hf, hshow, hbind]

/-- Witness for C6: a single-field form whose predicate throws fails
immediately, returning no state. -/
theorem C6_failure_aborts_witness :
    runAux ([⟨0, fun _ => Except.error (), fun _ => Except.ok true⟩] :
             List (FormField Nat))
        (0 + 1) 0 (fun _ => none) [] [] [] = some (RunResult.failed, []) :=
  (C6_failure_aborts ([⟨0, fun _ => Except.error (), fun _ => Except.ok true⟩] :
      List (FormField Nat))
    0 ⟨0, fun _ => Except.error (), fun _ => Except.ok true⟩
    (fun _ => none) [] [] [] [] 0).1 rfl rfl

end WizardCore

namespace AsyncColl

/-- Modelled from the spec: `AsyncCollection.flatten()` (spec section 4.4)
turns a finite sequence of pages into a flat sequence of items, preserving
page order and within-page order. -/
def flattenColl {α : Type} (pages : List (List α)) : List α := pages.flatten

/-- Modelled from the spec: `AsyncCollection.filter(p)`: lazy, order-preserving
per-item filtering. -/
def filterColl {α : Type} (p : α → Bool) (c : List α) : List α := c.filter p

/-- Modelled from the spec: `AsyncCollection.map(f)`: lazy, order-preserving
per-item transform. -/
def mapColl {α β : Type} (f : α → β) (c : List α) : List β := c.map f

/-- Modelled from the spec: `AsyncCollection.promise()` eagerly materializes
the sequence into a concrete ordered list. -/
def promiseColl {α : Type} (c : List α) : List α := c

/-- Modelled from the spec: the requester boundary
`(continuationState) -> (page of items, nextContinuationState | done)`
(spec section 6), followed until `done`; `none` means the fuel ran out before
the requester signalled completion. -/
def fetchAllPages {α γ : Type} (req : γ → List α × Option γ) :
    Nat → γ → Option (List (List α))
  | 0, _ => none
  | fuel + 1, c =>
    match req c with
    | (page, none) => some [page]
    | (page, some c2) => (fetchAllPages req fuel c2).map (fun ps => page :: ps)

/-- Claim C7: `flatten().filter(p).map(f)` yields items in requester page
order with within-page order preserved (the filtered flat sequence is a
sublist of the flattened one, hence never reordered, and `map` is positional),
and the materialized result's length equals the sum over the pages of the
per-page length after filtering.  The last two conjuncts check Scenario E:
a requester returning 3 pages of 2 items with no continuation after page 3
yields exactly 6 items via `flatten().promise()` in page-then-within-page
order. -/
theorem C7_async_collection_order :
    (∀ (pages : List (List Nat)) (p : Nat → Bool) (f : Nat → Nat),
      (promiseColl (mapColl f (filterColl p (flattenColl pages)))).length =
        (pages.map (fun pg => (filterColl p pg).length)).sum) ∧
    (∀ (pages : List (List Nat)) (p : Nat → Bool),
      List.Sublist (filterColl p (flattenColl pages)) (flattenColl pages)) ∧
    (∀ (pages : List (List Nat)) (p : Nat → Bool) (f : Nat → Nat),
      mapColl f (filterColl p (flattenColl pages)) =
        (filterColl p (flattenColl pages)).map f) ∧
    fetchAllPages (fun i => ([10 * i + 1, 10 * i + 2],
        if i < 2 then some (i + 1) else none)) 5 0 =
      some [[1, 2], [11, 12], [21, 22]] ∧
    promiseColl (flattenColl [[1, 2], [11, 12], [21, 22]]) =
      [1, 2, 11, 12, 21, 22] := by
  refine ⟨?_, ?_, fun _ _ _ => rfl, by decide, rfl⟩
  · intro pages p f
    simp only [promiseColl, mapColl, filterColl, flattenColl, List.length_map]
    induction pages with
    | nil => rfl
    | cons pg rest ih =>
      simp only [List.flatten_cons, List.filter_append, List.length_append,
        List.map_cons, List.sum_cons, ih]
  · intro pages p
    exact List.filter_sublist _

end AsyncColl

namespace Telemetry

/-- A single metadata key/value pair as sent by the telemetry client; both
components are optional (embedded from the clienttelemetry model used by
the source). -/
structure MetadataEntry where
  Key : Option String
  Value : Option String
deriving DecidableEq

/-- A logged metric: its name and optional metadata entries (the fields of
MetricDatum that the logger consults). -/
structure MetricDatum where
  MetricName : String
  Metadata : Option (List MetadataEntry)
deriving DecidableEq

/-- Embeds `MetricQuery` of the source: a metric name to look up and the
attribute keys to filter out of the metadata. -/
structure MetricQuery where
  metricName : String
  filters : Option (List String)

/-- Embeds `isValidEntry` of the source: both Key and Value are defined. -/
def isValidEntry (d : MetadataEntry) : Bool := d.Key.isSome && d.Value.isSome

/-- The second filter inside `mapMetadata`: the entry's Key is not one of the
filtered attributes (entries reaching it always have a defined Key). -/
def keptEntry (filters : List String) (a : MetadataEntry) : Bool :=
  match a.Key with
  | some k => !(filters.contains k)
  | none => false

/-- The queried metadata: a record assigning each key at most one value. -/
abbrev Metadata : Type := String → Option String

/-- Embeds `mapMetadata` of the source: keep the valid entries, drop the
filtered keys, and build a record by assigning `result[b.Key] = b.Value` left
to right (so a later entry with the same Key overwrites an earlier one). -/
def mapMetadata (filters : List String) (metadata : List MetadataEntry) : Metadata :=
  ((metadata.filter isValidEntry).filter (keptEntry filters)).foldl
    (fun acc b => fun k => if b.Key = some k then b.Value else acc k)
    (fun _ => none)

/-- Embeds `TelemetryLogger` of the source: the list of logged metrics, in
log order. -/
structure TelemetryLogger where
  metrics : List MetricDatum

/-- Embeds `TelemetryLogger.queryFull` of the source. -/
def TelemetryLogger.queryFull (t : TelemetryLogger) (q : MetricQuery) :
    List MetricDatum :=
  t.metrics.filter (fun m => m.MetricName == q.metricName)

/-- Embeds `TelemetryLogger.query` of the source. -/
def TelemetryLogger.query (t : TelemetryLogger) (q : MetricQuery) : List Metadata :=
  ((t.queryFull q).map (fun m => m.Metadata.getD [])).map
    (mapMetadata (q.filters.getD []))

/-- Helper: folding assignments over a list of entries looks up the last entry
whose Key matches. -/
theorem foldl_assign_eq_find (l : List MetadataEntry) (base : Metadata) (k : String) :
    l.foldl (fun acc b => fun q => if b.Key = some q then b.Value else acc q) base k =
      match l.reverse.find? (fun e => e.Key == some k) with
      | some e => e.Value
      | none => base k := by
  induction l generalizing base with
  | nil => rfl
  | cons e rest ih =>
    simp only [List.foldl_cons, List.reverse_cons, List.find?_append]
    rw [ih]
    cases hfind : rest.reverse.find? (fun e => e.Key == some k) with
    | some e2 => simp [Option.orElse]
    | none =>
      simp only [Option.orElse, Option.none_orElse]
      cases hke : (e.Key == some k) with
      | true =>
        have : e.Key = some k := by simpa using hke
        simp [List.find?, hke, this]
      | false =>
        have : ¬ e.Key = some k := by simpa using hke
        simp [List.find?, hke, this]

/-- Counterexample to C8 as stated: with two valid, unfiltered entries sharing
the Key "a" (values "1" and "2"), the returned record does not contain the
first entry: it maps "a" to "2", the later value. -/
theorem C8_counterexample :
    isValidEntry ⟨some "a", some "1"⟩ = true ∧
    keptEntry [] ⟨some "a", some "1"⟩ = true ∧
    (TelemetryLogger.query
        ⟨[⟨"m", some [⟨some "a", some "1"⟩, ⟨some "a", some "2"⟩]⟩]⟩
        ⟨"m", none⟩).headD (fun _ => none) "a" = some "2" ∧
    some "2" ≠ some "1" := by
  refine ⟨rfl, rfl, ?_, by decide⟩
  rfl

/-- Claim C8 (amended): `queryFull` returns exactly the logged metrics whose
MetricName equals the queried name, in log order (a sublist of the log), and
`query` returns for each such metric the record that maps a key `k` to the
Value of the last metadata entry with defined Key and Value, Key not among
the query's filters, and Key equal to `k` (later entries overwrite earlier
ones with the same Key); keys with no such entry are absent. -/
theorem C8_telemetry_query (t : TelemetryLogger) (q : MetricQuery) :
    (∀ m, m ∈ t.queryFull q ↔ (m ∈ t.metrics ∧ m.MetricName = q.metricName)) ∧
    List.Sublist (t.queryFull q) t.metrics ∧
    t.query q = (t.queryFull q).map
      (fun m => mapMetadata (q.filters.getD []) (m.Metadata.getD [])) ∧
    (∀ (fs : List String) (md : List MetadataEntry) (k : String),
      mapMetadata fs md k =
        (((md.filter isValidEntry).filter (keptEntry fs)).reverse.find?
          (fun e => e.Key == some k)).bind (fun e => e.Value)) := by
  refine ⟨?_, ?_, ?_, ?_⟩
  · intro m
    simp [TelemetryLogger.queryFull, List.mem_filter]
  · exact List.filter_sublist _
  · simp [TelemetryLogger.query, List.map_map, Function.comp]
  · intro fs md k
    rw [mapMetadata, foldl_assign_eq_find]
    cases hfind : ((md.filter isValidEntry).filter (keptEntry fs)).reverse.find?
        (fun e => e.Key == some k) <;> simp [hfind]

/-- Witness for C8 (amended): a concrete query over a two-metric log keeps
only the matching metric and builds its record. -/
theorem C8_telemetry_query_witness :
    TelemetryLogger.query ⟨[⟨"m", some [⟨some "a", some "1"⟩]⟩, ⟨"n", none⟩]⟩
        ⟨"m", none⟩ =
      (TelemetryLogger.queryFull ⟨[⟨"m", some [⟨some "a", some "1"⟩]⟩, ⟨"n", none⟩]⟩
        ⟨"m", none⟩).map
        (fun m => mapMetadata ((none : Option (List String)).getD [])
          (m.Metadata.getD [])) :=
  (C8_telemetry_query ⟨[⟨"m", some [⟨some "a", some "1"⟩]⟩, ⟨"n", none⟩]⟩
    ⟨"m", none⟩).2.2.1

end Telemetry

namespace Webview

/-- Outcome with which the `sendRequest` promise settles, embedded from the
listener and timer closures of `WebviewClientAgent.sendRequest`:
resolution with the message data, resolution with an event-handler dispose
handle, rejection with the revived error, rejection because the frontend
event handler is not a function, or rejection on timeout. -/
inductive WOutcome where
  | resolvedData
  | resolvedDispose
  | rejectedError
  | rejectedBadHandler
  | rejectedTimeout
deriving DecidableEq

/-- Whether an outcome is a rejection of the promise. -/
def isRejected : WOutcome → Bool
  | WOutcome.rejectedError => true
  | WOutcome.rejectedBadHandler => true
  | WOutcome.rejectedTimeout => true
  | _ => false

/-- State of one `sendRequest` call: how the promise has settled (if at all),
whether the message listener is still registered, and whether the timeout
timer is still pending. -/
structure ReqState where
  settled : Option WOutcome
  listener : Bool
  timer : Bool
deriving DecidableEq

/-- An external event delivered to the request: a `message` event carrying the
message's id and its `error`/`event` markers, or the timeout firing. -/
inductive WEvent where
  | message (mid : String) (isError : Bool) (isEvent : Bool)
  | timeoutFire
deriving DecidableEq

/-- How a matching message settles the promise, following the branches of the
listener in `sendRequest`: `error === true` rejects with the revived error;
an event message resolves with a dispose handle when `args[0]` is a function
and otherwise rejects (the reject statement is reached first); any other
message resolves with its data. -/
def matchOutcome (isError isEvent argsHeadIsFunction : Bool) : WOutcome :=
  if isError then WOutcome.rejectedError
  else if isEvent then
    (if argsHeadIsFunction then WOutcome.resolvedDispose
     else WOutcome.rejectedBadHandler)
  else WOutcome.resolvedData

/-- Settling the promise: a promise keeps the first outcome it settled with
(later resolve/reject calls are no-ops), the listener is removed and the
timer cleared. -/
def settle (st : ReqState) (o : WOutcome) : ReqState :=
  ⟨some (st.settled.getD o), false, false⟩

/-- Embeds the event handling of `WebviewClientAgent.sendRequest`: a message
event is seen only while the listener is registered and is ignored unless its
id equals the request id; a matching message removes the listener, clears the
timer and settles; the timeout (which fires only while the timer is pending)
removes the listener and rejects. -/
def stepReq (id : String) (argsHeadIsFunction : Bool) (st : ReqState)
    (e : WEvent) : ReqState :=
  match e with
  | WEvent.message mid isError isEvent =>
    if st.listener then
      (if mid == id then settle st (matchOutcome isError isEvent argsHeadIsFunction)
       else st)
    else st
  | WEvent.timeoutFire => if st.timer then settle st WOutcome.rejectedTimeout else st

/-- State of a request right after `sendRequest` registers its listener and
starts its timer. -/
def initReq : ReqState := ⟨none, true, true⟩

/-- Processing a whole sequence of events for one request. -/
def runReq (id : String) (argsHeadIsFunction : Bool) (events : List WEvent) :
    ReqState :=
  events.foldl (stepReq id argsHeadIsFunction) initReq

/-- Counterexample to C9 as stated: a first matching message that is an event
message while the request's first argument is not a function makes the promise
reject, although the message is not marked as an error (the claim allows
rejection only for error-marked messages). -/
theorem C9_counterexample :
    (stepReq "r1" false initReq (WEvent.message "r1" false true)).settled =
      some WOutcome.rejectedBadHandler ∧
    isRejected WOutcome.rejectedBadHandler = true := by
  constructor
  · rfl
  · rfl

/-- Claim C9 (amended): the `sendRequest` promise settles at most once.
Messages whose id differs from the request id leave the state unchanged; the
first matching message removes the listener, clears the timer and resolves
the promise (or rejects it when the message is marked as an error, or when it
is an event message and the request's first argument is not a function); a
timeout while the timer is pending removes the listener and rejects; and once
settled, the outcome never changes under any further event. -/
theorem C9_send_request (id : String) (fn : Bool) :
    (∀ (st : ReqState) (mid : String) (e1 e2 : Bool), (mid == id) = false →
      stepReq id fn st (WEvent.message mid e1 e2) = st) ∧
    (∀ (st : ReqState) (isError isEvent : Bool), st.listener = true →
      st.settled = none →
      stepReq id fn st (WEvent.message id isError isEvent) =
        ⟨some (matchOutcome isError isEvent fn), false, false⟩) ∧
    (∀ st : ReqState, st.timer = true → st.settled = none →
      stepReq id fn st WEvent.timeoutFire =
        ⟨some WOutcome.rejectedTimeout, false, false⟩) ∧
    (∀ (st : ReqState) (e : WEvent) (o : WOutcome), st.settled = some o →
      (stepReq id fn st e).settled = some o) ∧
    (∀ (events more : List WEvent) (o : WOutcome),
      (runReq id fn events).settled = some o →
      (runReq id fn (events ++ more)).settled = some o) := by
  have hstable : ∀ (st : ReqState) (e : WEvent) (o : WOutcome),
      st.settled = some o → (stepReq id fn st e).settled = some o := by
    intro st e o hset
    cases e with
    | message mid e1 e2 =>
      by_cases hl : st.listener <;> by_cases hm : (mid == id) = true <;>
        simp [stepReq, settle, hl, hm, hset]
    | timeoutFire =>
      by_cases ht : st.timer <;> simp [stepReq, settle, ht, hset]
  refine ⟨?_, ?_, ?_, hstable, ?_⟩
  · intro st mid e1 e2 hm
    cases st with
    | mk s l t => cases l <;> simp [stepReq, hm]
  · intro st isError isEvent hl hset
    simp [stepReq, settle, hl, hset]
  · intro st ht hset
    simp [stepReq, settle, ht, hset]
  · intro events more o hset
    have hgen : ∀ (l : List WEvent) (st : ReqState), st.settled = some o →
        (l.foldl (stepReq id fn) st).settled = some o := by
      intro l
      induction l with
      | nil => intro st h; exact h
      | cons e rest ih => intro st h; exact ih _ (hstable _ _ _ h)
    rw [runReq, List.foldl_append]
    exact hgen more (runReq id fn events) hset

/-- Witness for C9 (amended): a non-matching message is ignored, a matching
plain message resolves with its data, and a timeout rejects. -/
theorem C9_send_request_witness :
    stepReq "a" true initReq (WEvent.message "b" false false) = initReq ∧
    stepReq "a" true initReq (WEvent.message "a" false false) =
      ⟨some WOutcome.resolvedData, false, false⟩ ∧
    stepReq "a" true initReq WEvent.timeoutFire =
      ⟨some WOutcome.rejectedTimeout, false, false⟩ :=
  ⟨(C9_send_request "a" true).1 initReq "b" false false (by decide),
   (C9_send_request "a" true).2.1 initReq false false rfl rfl,
   (C9_send_request "a" true).2.2.1 initReq rfl rfl⟩

end Webview

namespace RegionCheck

/-- Label of the affirmative quick-pick choice (`RegionMissingUI.add`,
which is the localized "Yes"). -/
def addLabel : String := "Yes"

/-- Label of the plain-ignore quick-pick choice (`RegionMissingUI.ignore`,
the localized "No"). -/
def ignoreLabel : String := "No"

/-- Label of the never-ask-again quick-pick choice
(`RegionMissingUI.alwaysIgnore`). -/
def alwaysIgnoreLabel : String := "No, and do not ask again"

/-- Observable effects of one `checkExplorerForDefaultRegion` call: whether
the quick pick was shown, which region (if any) was added to the explorer,
whether the explorer was refreshed, and whether the prompt was disabled. -/
structure RegionCheckEffects where
  promptShown : Bool
  regionAdded : Option String
  refreshed : Bool
  promptDisabled : Bool
deriving DecidableEq

/-- Embeds `checkExplorerForDefaultRegion` of the source: return early with no
effects when the profile's default region is already among the explorer
regions or the `regionAddAutomatically` prompt is disabled; otherwise show the
quick pick; a cancelled pick (no selection) does nothing further; picking the
affirmative choice adds the region and refreshes the explorer; picking the
never-ask-again choice disables the prompt. -/
def checkExplorerForDefaultRegion (profileRegion : String)
    (explorerRegions : List String) (promptEnabled : Bool)
    (choice : Option String) : RegionCheckEffects :=
  if explorerRegions.contains profileRegion then ⟨false, none, false, false⟩
  else if !promptEnabled then ⟨false, none, false, false⟩
  else
    match choice with
    | none => ⟨true, none, false, false⟩
    | some r =>
      if r = addLabel then ⟨true, some profileRegion, true, false⟩
      else if r = alwaysIgnoreLabel then ⟨true, none, false, true⟩
      else ⟨true, none, false, false⟩

/-- Claim C10: the explorer region set is left unchanged (nothing added, no
refresh) and no prompt is shown when the profile's default region is already
among the explorer regions or the prompt is disabled; a cancelled quick pick
also leaves the region set unchanged; and a region is added, followed by a
refresh, exactly when the region is missing, the prompt is enabled and the
user picks the affirmative choice — in which case the added region is the
profile's default region. -/
theorem C10_check_default_region (profileRegion : String)
    (explorerRegions : List String) (promptEnabled : Bool)
    (choice : Option String) :
    (explorerRegions.contains profileRegion = true →
      checkExplorerForDefaultRegion profileRegion explorerRegions promptEnabled
        choice = ⟨false, none, false, false⟩) ∧
    (promptEnabled = false →
      checkExplorerForDefaultRegion profileRegion explorerRegions promptEnabled
        choice = ⟨false, none, false, false⟩) ∧
    (choice = none →
      (checkExplorerForDefaultRegion profileRegion explorerRegions promptEnabled
        choice).regionAdded = none ∧
      (checkExplorerForDefaultRegion profileRegion explorerRegions promptEnabled
        choice).refreshed = false) ∧
    ((checkExplorerForDefaultRegion profileRegion explorerRegions promptEnabled
        choice).regionAdded = some profileRegion ∧
     (checkExplorerForDefaultRegion profileRegion explorerRegions promptEnabled
        choice).refreshed = true ↔
      explorerRegions.contains profileRegion = false ∧ promptEnabled = true ∧
        choice = some addLabel) ∧
    ((checkExplorerForDefaultRegion profileRegion explorerRegions promptEnabled
        choice).regionAdded = none ∨
     (checkExplorerForDefaultRegion profileRegion explorerRegions promptEnabled
        choice).regionAdded = some profileRegion) := by
  refine ⟨?_, ?_, ?_, ?_, ?_⟩
  · intro h
    rw [checkExplorerForDefaultRegion.eq_def, if_pos h]
  · intro h
    simp only [checkExplorerForDefaultRegion, h]
    cases hc : explorerRegions.contains profileRegion <;> simp
  · intro h
    subst h
    simp only [checkExplorerForDefaultRegion]
    cases hc : explorerRegions.contains profileRegion <;>
      cases promptEnabled <;> simp
  · by_cases hc : explorerRegions.contains profileRegion = true
    · rw [checkExplorerForDefaultRegion.eq_def, if_pos hc]
      have hmem : profileRegion ∈ explorerRegions := by simpa using hc
      simp [hmem]
    · have hcf : explorerRegions.contains profileRegion = false := by
        revert hc
        cases explorerRegions.contains profileRegion <;> simp
      cases promptEnabled with
      | false =>
        have hck : checkExplorerForDefaultRegion profileRegion explorerRegions
            false choice = ⟨false, none, false, false⟩ := by
          rw [checkExplorerForDefaultRegion.eq_def, if_neg hc]
          rfl
        rw [hck]
        simp
      | true =>
        have hck : checkExplorerForDefaultRegion profileRegion explorerRegions
            true choice =
            match choice with
            | none => ⟨true, none, false, false⟩
            | some r =>
              if r = addLabel then ⟨true, some profileRegion, true, false⟩
              else if r = alwaysIgnoreLabel then ⟨true, none, false, true⟩
              else ⟨true, none, false, false⟩ := by
          rw [checkExplorerForDefaultRegion.eq_def, if_neg hc]
          rfl
        rw [hck]
        cases choice with
        | none => simp
        | some r =>
          by_cases hr : r = addLabel
          · subst hr
            have hmem : profileRegion ∉ explorerRegions := by simpa using hcf
            simp [hmem]
          · by_cases hr2 : r = alwaysIgnoreLabel
            · subst hr2
              simp [addLabel, alwaysIgnoreLabel]
            · simp [hr, hr2]
  · by_cases hc : explorerRegions.contains profileRegion = true
    · rw [checkExplorerForDefaultRegion.eq_def, if_pos hc]
      simp
    · cases promptEnabled with
      | false =>
        have hck : checkExplorerForDefaultRegion profileRegion explorerRegions
            false choice = ⟨false, none, false, false⟩ := by
          rw [checkExplorerForDefaultRegion.eq_def, if_neg hc]
          rfl
        rw [hck]
        simp
      | true =>
        have hck : checkExplorerForDefaultRegion profileRegion explorerRegions
            true choice =
            match choice with
            | none => ⟨true, none, false, false⟩
            | some r =>
              if r = addLabel then ⟨true, some profileRegion, true, false⟩
              else if r = alwaysIgnoreLabel then ⟨true, none, false, true⟩
              else ⟨true, none, false, false⟩ := by
          rw [checkExplorerForDefaultRegion.eq_def, if_neg hc]
          rfl
        rw [hck]
        cases choice with
        | none => simp
        | some r =>
          by_cases hr : r = addLabel
          · subst hr
            simp
          · by_cases hr2 : r = alwaysIgnoreLabel
            · subst hr2
              simp [addLabel, alwaysIgnoreLabel]
            · simp [hr, hr2]

/-- Witness for C10: with the default region already shown, nothing happens;
with it missing, the prompt enabled and the affirmative choice picked, the
region is added and the explorer refreshed. -/
theorem C10_check_default_region_witness :
    checkExplorerForDefaultRegion "us-east-1" ["us-east-1"] true none =
      ⟨false, none, false, false⟩ ∧
    (checkExplorerForDefaultRegion "us-west-2" ["us-east-1"] true
        (some addLabel)).regionAdded = some "us-west-2" ∧
    (checkExplorerForDefaultRegion "us-west-2" ["us-east-1"] true
        (some addLabel)).refreshed = true :=
  ⟨(C10_check_default_region "us-east-1" ["us-east-1"] true none).1 (by decide),
   ((C10_check_default_region "us-west-2" ["us-east-1"] true
      (some addLabel)).2.2.2.1.mpr ⟨by decide, rfl, rfl⟩).1,
   ((C10_check_default_region "us-west-2" ["us-east-1"] true
      (some addLabel)).2.2.2.1.mpr ⟨by decide, rfl, rfl⟩).2⟩

end RegionCheck
